import Mathlib

/-!
Verification of the data-reconciliation core of `src/app_reqV.py`
(Sistema de Conferência de Requerimentos).

A `DataFrame` is embedded as a list of column names together with a list of
positional rows; a cell is null (NaN), a rational number, or a string.
The functions below translate, stage by stage, the source functions
`find_and_rename_nusp_column`, `validate_dataframes`, `preprocess_data`,
the merge/partition of `run_app` (lines 376-378) and the metric
computations of `display_overview`.
-/

namespace AppReqV

/-- A cell of a pandas DataFrame: NaN, a numeric value, or a text value. -/
inductive CellValue where
  | null : CellValue
  | num (q : Rat) : CellValue
  | str (s : String) : CellValue
deriving DecidableEq, Repr

instance : BEq CellValue := ⟨fun a b => decide (a = b)⟩

instance : LawfulBEq CellValue where
  eq_of_beq h := of_decide_eq_true h
  rfl := by simp [BEq.beq]

instance {ε α : Type} [DecidableEq ε] [DecidableEq α] : DecidableEq (Except ε α) :=
  fun x y =>
    match x, y with
    | Except.ok a, Except.ok b =>
        if h : a = b then isTrue (by rw [h])
        else isFalse (fun hh => h (by injection hh))
    | Except.error a, Except.error b =>
        if h : a = b then isTrue (by rw [h])
        else isFalse (fun hh => h (by injection hh))
    | Except.ok _, Except.error _ => isFalse (fun hh => Except.noConfusion hh)
    | Except.error _, Except.ok _ => isFalse (fun hh => Except.noConfusion hh)

/-- A pandas DataFrame: an ordered list of column names and positional rows. -/
structure DataFrame where
  cols : List String
  rows : List (List CellValue)
deriving DecidableEq, Repr

/-- The cell of a row at position `i` (missing positions read as NaN). -/
def cellAt : List CellValue → Nat → CellValue
  | [], _ => CellValue.null
  | c :: _, 0 => c
  | _ :: t, n + 1 => cellAt t n

/-- The cell of row `r` at the column named `c` of DataFrame `df`. -/
def rowCell (df : DataFrame) (c : String) (r : List CellValue) : CellValue :=
  cellAt r (df.cols.indexOf c)

/-- Structured rendering of the `ValueError`s raised by the source. -/
inductive AppError where
  | missingIdentifier (availableCols : List String)
  | schemaValidation (missingConsolidado missingRequerimentos : List String)
deriving DecidableEq, Repr

/-! ### Numeric coercion (`pd.to_numeric(..., errors="coerce")`) -/

/-- Value of a list of decimal digit characters (fails on a non-digit).
The empty list reads as 0, as guarded by the callers. -/
def digitsToNat (cs : List Char) : Option Nat :=
  cs.foldl
    (fun acc c =>
      match acc with
      | some a => if c.isDigit then some (a * 10 + (c.toNat - 48)) else none
      | none => none)
    (some 0)

/-- Strip leading and trailing whitespace from a character list. -/
def trimChars (cs : List Char) : List Char :=
  (((cs.dropWhile Char.isWhitespace).reverse).dropWhile Char.isWhitespace).reverse

/-- Split a character list at each occurrence of the dot character. -/
def splitOnDot : List Char → List (List Char)
  | [] => [[]]
  | c :: rest =>
      let r := splitOnDot rest
      if c = '.' then [] :: r
      else
        match r with
        | [] => [[c]]
        | g :: gs => (c :: g) :: gs

/-- Parse an unsigned decimal numeral, with an optional fractional part
(the value of `ip.fp` is the exact rational `(ip * 10^|fp| + fp) / 10^|fp|`). -/
def parseUnsignedChars (cs : List Char) : Option Rat :=
  match splitOnDot cs with
  | [ip] =>
      if ip.isEmpty then none
      else (digitsToNat ip).map (fun n => ((n : Int) : Rat))
  | [ip, fp] =>
      if ip.isEmpty && fp.isEmpty then none
      else
        match digitsToNat ip, digitsToNat fp with
        | some n, some f => some (mkRat ((n : Int) * 10 ^ fp.length + (f : Int)) (10 ^ fp.length))
        | _, _ => none
  | _ => none

/-- Parse a signed decimal numeral the way `pd.to_numeric` reads a string. -/
def parseNum (s : String) : Option Rat :=
  match trimChars s.toList with
  | '-' :: rest => (parseUnsignedChars rest).map (fun q => -q)
  | '+' :: rest => parseUnsignedChars rest
  | t => parseUnsignedChars t

/-- Numeric reading of a cell: `pd.to_numeric` succeeds on numeric cells and
on strings that parse as numerals, and yields NaN (`none`) otherwise. -/
def toNumeric : CellValue → Option Rat
  | CellValue.null => none
  | CellValue.num q => some q
  | CellValue.str s => parseNum s

/-- The cell written back by `pd.to_numeric(..., errors="coerce")`. -/
def pdToNumericCell (v : CellValue) : CellValue :=
  match toNumeric v with
  | some q => CellValue.num q
  | none => CellValue.null

/-- Truncation toward zero, the behaviour of `.astype(int)` on a float. -/
def ratTrunc (q : Rat) : Int :=
  q.num.tdiv (q.den : Int)

/-- The cell written back by `.astype(int)` on the coerced column. -/
def astypeIntCell (v : CellValue) : CellValue :=
  match v with
  | CellValue.num q => CellValue.num ((ratTrunc q : Int) : Rat)
  | v => v

/-! ### Header Normalizer (`find_and_rename_nusp_column`) -/

/-- The `rename_map` table of the source, in its insertion order. -/
def rename_map : List (String × List String) :=
  [("nusp", ["nusp", "numero usp", "número usp", "n° usp", "n usp"]),
   ("problema", ["problema"]),
   ("Nome completo", ["nome completo"]),
   ("parecer_sg", ["parecer do serviço de graduação", "parecer serviço de graduação"]),
   ("obs_sg", ["observação do sg", "observacao sg", "observação sg"]),
   ("link_requerimento", ["links pedidos requerimento"]),
   ("link_plano_estudos", ["link plano de estudos"]),
   ("link_plano_presenca", ["link plano de presença"])]

/-- `str.lower()` (ASCII case folding, as the headers are ASCII-cased). -/
def lowerStr (s : String) : String :=
  String.mk (s.toList.map Char.toLower)

/-- `str(col).lower().strip()` applied to a raw column name. -/
def normalizeCol (c : String) : String :=
  String.mk (trimChars (lowerStr c).toList)

/-- The renaming applied to one column: the first standard name whose
variation list holds the normalized column, the column itself otherwise. -/
def renameCol (c : String) : String :=
  match rename_map.find? (fun p => p.2.contains (normalizeCol c)) with
  | some p => p.1
  | none => c

/-- `find_and_rename_nusp_column`: rename every recognized column, then fail
when no column ended up named `nusp`, reporting the available columns. -/
def find_and_rename_nusp_column (df : DataFrame) : Except AppError DataFrame :=
  let renamed : DataFrame := { df with cols := df.cols.map renameCol }
  if "nusp" ∈ renamed.cols then Except.ok renamed
  else Except.error (AppError.missingIdentifier renamed.cols)

/-! ### Schema Validator (`validate_dataframes`) -/

def required_cols_consolidado : List String :=
  ["nusp", "disciplina", "Ano", "Semestre", "problema", "parecer"]

def required_cols_requerimentos : List String :=
  ["nusp", "Nome completo", "problema"]

/-- The required columns absent from a DataFrame, in required-list order. -/
def missingCols (required : List String) (df : DataFrame) : List String :=
  required.filter (fun c => !(df.cols.contains c))

/-- `validate_dataframes`: fail iff either dataset misses a required column,
reporting, per dataset, exactly the absent columns. -/
def validate_dataframes (df_consolidado df_requerimentos : DataFrame) :
    Except AppError Unit :=
  let missing_consolidado := missingCols required_cols_consolidado df_consolidado
  let missing_requerimentos := missingCols required_cols_requerimentos df_requerimentos
  if missing_consolidado = [] ∧ missing_requerimentos = [] then Except.ok ()
  else Except.error (AppError.schemaValidation missing_consolidado missing_requerimentos)

/-! ### Record Cleaner (`preprocess_data`) -/

/-- Result of `preprocess_data`: the cleaned DataFrame and the count of
removed records surfaced by the warning. -/
structure CleanResult where
  df : DataFrame
  removed : Nat
deriving DecidableEq, Repr

/-- Position of the `nusp` column. -/
def nuspIdx (df : DataFrame) : Nat :=
  df.cols.indexOf "nusp"

/-- `df["nusp"] = pd.to_numeric(df["nusp"], errors="coerce")` on one row. -/
def coerceNusp (i : Nat) (r : List CellValue) : List CellValue :=
  r.set i (pdToNumericCell (cellAt r i))

/-- `preprocess_data`: coerce the `nusp` column to numeric, count and drop
the rows whose `nusp` became NaN, and cast the survivors to integer. -/
def preprocess_data (df : DataFrame) : CleanResult :=
  let i := nuspIdx df
  let coerced := df.rows.map (coerceNusp i)
  let removed := coerced.countP (fun r => decide (cellAt r i = CellValue.null))
  let kept := coerced.filter (fun r => !(decide (cellAt r i = CellValue.null)))
  let final := kept.map (fun r => r.set i (astypeIntCell (cellAt r i)))
  ⟨{ df with rows := final }, removed⟩

/-- The row produced by `preprocess_data` from one input row: the numeric
coercion of the identifier, truncated to integer, written in place; `none`
when the identifier does not read as a number. -/
def cleanRow (i : Nat) (r : List CellValue) : Option (List CellValue) :=
  (toNumeric (cellAt r i)).map
    (fun q => r.set i (CellValue.num ((ratTrunc q : Int) : Rat)))

/-! ### Reconciler (`run_app`, lines 376-378) -/

/-- `df_requerimentos.merge(df_consolidado, on="nusp", how="inner")`:
each left row pairs with each right row sharing its (non-NaN) key; the key
column of the right frame is not repeated in the merged frame. -/
def mergeInner (dfL dfR : DataFrame) (k : String) : DataFrame :=
  { cols := dfL.cols ++ (dfR.cols.erase k),
    rows := dfL.rows.flatMap (fun r =>
      ((dfR.rows.filter (fun h =>
          decide (rowCell dfL k r = rowCell dfR k h ∧ rowCell dfL k r ≠ CellValue.null))).map
        (fun h => r ++ h.eraseIdx (dfR.cols.indexOf k)))) }

/-- The column of `nusp` values of a DataFrame, row by row. -/
def nuspsOf (df : DataFrame) : List CellValue :=
  df.rows.map (rowCell df "nusp")

/-- `set(alunos_com_historico["nusp"])`: the identifiers present in the
inner join of the current requests with the historical records. -/
def nuspsComHistorico (dfReq dfCons : DataFrame) : List CellValue :=
  nuspsOf (mergeInner dfReq dfCons "nusp")

/-- `df_novos`: the current rows whose identifier is absent from the join. -/
def dfNovos (dfReq dfCons : DataFrame) : DataFrame :=
  { dfReq with
    rows := dfReq.rows.filter
      (fun r => !(decide (rowCell dfReq "nusp" r ∈ nuspsComHistorico dfReq dfCons))) }

/-! ### Aggregator (`display_overview`) -/

/-- Substring test on character lists (`pat` occurs inside `s`). -/
def listContainsSub (pat : List Char) : List Char → Bool
  | [] => pat.isEmpty
  | c :: rest => pat.isPrefixOf (c :: rest) || listContainsSub pat rest

/-- `pat in s` on strings, the semantics of `Series.str.contains` on a
plain substring pattern. -/
def strContainsSub (s pat : String) : Bool :=
  listContainsSub pat.toList s.toList

/-- One historical `parecer` counted by the `aprovados` mask:
`contains("aprovado") & ~contains("indeferido|negado")` on the
lower-cased text; non-string cells read as NaN and never match. -/
def aprovadoCell (v : CellValue) : Bool :=
  match v with
  | CellValue.str s =>
      strContainsSub (lowerStr s) "aprovado" &&
        !(strContainsSub (lowerStr s) "indeferido" || strContainsSub (lowerStr s) "negado")
  | _ => false

/-- One historical `parecer` counted by the `negados` mask:
`contains("indeferido|negado")` on the lower-cased text. -/
def negadoCell (v : CellValue) : Bool :=
  match v with
  | CellValue.str s =>
      strContainsSub (lowerStr s) "indeferido" || strContainsSub (lowerStr s) "negado"
  | _ => false

/-- `Series.nunique()`: the number of distinct non-NaN values of a column. -/
def nunique (df : DataFrame) (c : String) : Nat :=
  (((df.rows.map (rowCell df c)).filter (fun v => !(decide (v = CellValue.null)))).dedup).length

/-- `aprovados.sum()` over the `parecer_historico` column of the joined frame. -/
def countAprovados (hist : DataFrame) : Nat :=
  hist.rows.countP (fun r => aprovadoCell (rowCell hist "parecer_historico" r))

/-- `negados.sum()` over the `parecer_historico` column of the joined frame. -/
def countNegados (hist : DataFrame) : Nat :=
  hist.rows.countP (fun r => negadoCell (rowCell hist "parecer_historico" r))

/-- `taxa_aprovacao`: approval rate over the joined frame, 0 when no
record is classified approved or denied. -/
def taxa_aprovacao (hist : DataFrame) : Rat :=
  let a := countAprovados hist
  let n := countNegados hist
  if a + n > 0 then (a : Rat) / ((a : Rat) + (n : Rat)) * 100 else 0

/-- `percentual_historico`: share of distinct current identifiers that have
history, 0 when the current dataset has no distinct identifier. -/
def percentual_historico (alunos_com_historico df_requerimentos : DataFrame) : Rat :=
  if nunique df_requerimentos "nusp" > 0 then
    (nunique alunos_com_historico "nusp" : Rat) / (nunique df_requerimentos "nusp" : Rat) * 100
  else 0

/-! ### Pipeline (`run_app`, processing section) -/

/-- The data handed to the presentation tabs when processing succeeds. -/
structure PipelineResult where
  dfConsolidado : DataFrame
  dfRequerimentos : DataFrame
  alunosComHistorico : DataFrame
  dfNovos : DataFrame
  removedConsolidado : Nat
  removedRequerimentos : Nat
deriving DecidableEq, Repr

/-- `df.drop(columns=[c])`. -/
def dropColumn (df : DataFrame) (c : String) : DataFrame :=
  let i := df.cols.indexOf c
  { cols := df.cols.eraseIdx i, rows := df.rows.map (fun r => r.eraseIdx i) }

def cols_to_rename_hist : List String :=
  ["disciplina", "Ano", "Semestre", "problema", "parecer"]

def req_rename_cols : List String :=
  ["problema", "parecer_sg", "obs_sg", "link_requerimento", "link_plano_estudos",
   "link_plano_presenca"]

/-- Rename each column of `src` by appending `sfx` (`_historico`/`_atual`). -/
def renameWithSfx (src : List String) (sfx : String) (df : DataFrame) : DataFrame :=
  { df with cols := df.cols.map (fun c => if c ∈ src then c ++ sfx else c) }

/-- The processing section of `run_app`: normalize headers, validate the
schema, drop the historical `Nome completo`, clean both datasets, apply the
`_historico`/`_atual` renames, join, and partition. -/
def run_app (file_consolidado file_requerimentos : DataFrame) :
    Except AppError PipelineResult := do
  let dfc ← find_and_rename_nusp_column file_consolidado
  let dfr ← find_and_rename_nusp_column file_requerimentos
  let _ ← validate_dataframes dfc dfr
  let dfc := if "Nome completo" ∈ dfc.cols then dropColumn dfc "Nome completo" else dfc
  let cleanC := preprocess_data dfc
  let cleanR := preprocess_data dfr
  let dfc := renameWithSfx cols_to_rename_hist "_historico" cleanC.df
  let dfr := renameWithSfx req_rename_cols "_atual" cleanR.df
  let joined := mergeInner dfr dfc "nusp"
  let novos := dfNovos dfr dfc
  Except.ok ⟨dfc, dfr, joined, novos, cleanC.removed, cleanR.removed⟩

/-! ### Helper lemmas -/

/-- `cellAt` past the end of a row reads NaN. -/
theorem cellAt_of_length_le (r : List CellValue) (i : Nat)
    (h : r.length ≤ i) : cellAt r i = CellValue.null := by
  induction r generalizing i with
  | nil => rfl
  | cons a t ih =>
      cases i with
      | zero => simp at h
      | succ n => exact ih n (by simpa using h)

/-- `cellAt` at a freshly `set` position reads the written value. -/
theorem cellAt_set_self (r : List CellValue) (i : Nat) (a : CellValue)
    (h : i < r.length) : cellAt (r.set i a) i = a := by
  induction r generalizing i with
  | nil => simp at h
  | cons b t ih =>
      cases i with
      | zero => rfl
      | succ n => exact ih n (by simpa using h)

/-- Writing back the value already present leaves the row unchanged. -/
theorem set_cellAt_self (r : List CellValue) (i : Nat) :
    r.set i (cellAt r i) = r := by
  induction r generalizing i with
  | nil => rfl
  | cons a t ih =>
      cases i with
      | zero => rfl
      | succ n => simpa using ih n

/-- `cellAt` only looks at the first list of a concatenation when the
position lies inside it. -/
theorem cellAt_append_left (r s : List CellValue) (i : Nat)
    (h : i < r.length) : cellAt (r ++ s) i = cellAt r i := by
  induction r generalizing i with
  | nil => simp at h
  | cons a t ih =>
      cases i with
      | zero => rfl
      | succ n => exact ih n (by simpa using h)

/-- A coerced row reads, at the identifier position, exactly the coerced
value of the original cell (also past the end of a short row). -/
theorem coerceNusp_cellAt (i : Nat) (r : List CellValue) :
    cellAt (coerceNusp i r) i = pdToNumericCell (cellAt r i) := by
  by_cases h : i < r.length
  · exact cellAt_set_self _ _ _ h
  · push_neg at h
    rw [coerceNusp, List.set_eq_of_length_le h, cellAt_of_length_le _ _ h]
    rfl

/-- Truncation is the identity on integral rationals. -/
theorem ratTrunc_intCast (n : Int) : ratTrunc ((n : Int) : Rat) = n := by
  simp [ratTrunc]

/-- The coerce/count/drop/cast pipeline of `preprocess_data`, fused: the
surviving rows are the `cleanRow` images of the rows whose identifier reads
as a number, and the removed count is the count of the others. -/
theorem clean_pipeline (i : Nat) (L : List (List CellValue)) :
    (((L.map (coerceNusp i)).filter
        (fun r => !(decide (cellAt r i = CellValue.null)))).map
      (fun r => r.set i (astypeIntCell (cellAt r i))))
      = L.filterMap (cleanRow i) ∧
    (L.map (coerceNusp i)).countP
        (fun r => decide (cellAt r i = CellValue.null))
      = L.countP (fun r => (toNumeric (cellAt r i)).isNone) := by
  induction L with
  | nil => simp
  | cons r L ih =>
      obtain ⟨ih1, ih2⟩ := ih
      cases hn : toNumeric (cellAt r i) with
      | none =>
          have hc : cellAt (coerceNusp i r) i = CellValue.null := by
            rw [coerceNusp_cellAt, pdToNumericCell, hn]
          constructor
          · rw [List.map_cons, List.filter_cons, if_neg (by rw [hc]; simp),
              List.filterMap_cons_none (by rw [cleanRow, hn]; rfl)]
            exact ih1
          · rw [List.map_cons, List.countP_cons, List.countP_cons, ih2, hc, hn]
            rfl
      | some q =>
          have hlen : i < r.length := by
            by_contra h
            push_neg at h
            rw [cellAt_of_length_le _ _ h] at hn
            exact Option.noConfusion hn
          have hc : cellAt (coerceNusp i r) i = CellValue.num q := by
            rw [coerceNusp_cellAt, pdToNumericCell, hn]
          have hg : (coerceNusp i r).set i (astypeIntCell (cellAt (coerceNusp i r) i))
              = r.set i (CellValue.num ((ratTrunc q : Int) : Rat)) := by
            rw [hc, coerceNusp, List.set_set]
            rfl
          constructor
          · rw [List.map_cons, List.filter_cons, if_pos (by rw [hc]; simp),
              List.filterMap_cons_some (by rw [cleanRow, hn]; rfl),
              List.map_cons, hg, ih1]
          · rw [List.map_cons, List.countP_cons, List.countP_cons, ih2, hc, hn]
            rfl

/-- `preprocess_data`, characterized row by row. -/
theorem preprocess_data_spec (df : DataFrame) :
    (preprocess_data df).df.rows = df.rows.filterMap (cleanRow (nuspIdx df)) ∧
    (preprocess_data df).removed =
      df.rows.countP (fun r => (toNumeric (cellAt r (nuspIdx df))).isNone) := by
  have h := clean_pipeline (nuspIdx df) df.rows
  exact ⟨h.1, h.2⟩

/-- Every standard name of the rename table is left unchanged by the
column renaming (checked by evaluation over the eight entries). -/
theorem renameCol_standard : ∀ p ∈ rename_map, renameCol p.1 = p.1 := by decide

/-- The column renaming is idempotent. -/
theorem renameCol_idem (c : String) : renameCol (renameCol c) = renameCol c := by
  cases h : rename_map.find? (fun p => p.2.contains (normalizeCol c)) with
  | none =>
      have h1 : renameCol c = c := by rw [renameCol, h]
      rw [h1]
      exact h1
  | some p =>
      have h1 : renameCol c = p.1 := by rw [renameCol, h]
      rw [h1]
      exact renameCol_standard p (List.mem_of_find?_eq_some h)

/-- Inversion of a successful header normalization: the output is the
column-renamed input and its columns include `nusp`. -/
theorem find_and_rename_ok (df df' : DataFrame)
    (h : find_and_rename_nusp_column df = Except.ok df') :
    df' = { df with cols := df.cols.map renameCol } ∧ "nusp" ∈ df'.cols := by
  simp only [find_and_rename_nusp_column] at h
  by_cases hc : "nusp" ∈ df.cols.map renameCol
  · rw [if_pos hc] at h
    injection h with h
    subst h
    exact ⟨rfl, hc⟩
  · rw [if_neg hc] at h
    exact Except.noConfusion h

/-- The merged frame looks up the key column inside its left part. -/
theorem rowCell_mergeInner (dfL dfR : DataFrame) (k : String) (hk : k ∈ dfL.cols)
    (r t : List CellValue) (hr : dfL.cols.length ≤ r.length) :
    rowCell (mergeInner dfL dfR k) k (r ++ t) = rowCell dfL k r := by
  have hidx : (mergeInner dfL dfR k).cols.indexOf k = dfL.cols.indexOf k :=
    List.indexOf_append_of_mem hk
  have hlt : dfL.cols.indexOf k < r.length :=
    lt_of_lt_of_le (List.indexOf_lt_length.2 hk) hr
  rw [rowCell, rowCell, hidx, cellAt_append_left _ _ _ hlt]

/-- Membership in the rows of the merged frame, unfolded. -/
theorem mem_mergeInner_rows (dfL dfR : DataFrame) (k : String) (row : List CellValue) :
    row ∈ (mergeInner dfL dfR k).rows ↔
      ∃ r ∈ dfL.rows, ∃ h ∈ dfR.rows,
        (rowCell dfL k r = rowCell dfR k h ∧ rowCell dfL k r ≠ CellValue.null) ∧
        row = r ++ h.eraseIdx (dfR.cols.indexOf k) := by
  show row ∈ dfL.rows.flatMap _ ↔ _
  simp only [List.mem_flatMap, List.mem_map, List.mem_filter, decide_eq_true_eq]
  constructor
  · rintro ⟨r, hr, h, ⟨hh, hcond⟩, hrow⟩
    exact ⟨r, hr, h, hh, hcond, hrow.symm⟩
  · rintro ⟨r, hr, h, hh, hcond, hrow⟩
    exact ⟨r, hr, h, ⟨hh, hcond⟩, hrow.symm⟩

/-- Fields determine a `DataFrame`. -/
theorem dataFrame_ext (a b : DataFrame) (h1 : a.cols = b.cols)
    (h2 : a.rows = b.rows) : a = b := by
  cases a
  cases b
  cases h1
  cases h2
  rfl

/-- Fields determine a `CleanResult`. -/
theorem cleanResult_ext (a b : CleanResult) (h1 : a.df = b.df)
    (h2 : a.removed = b.removed) : a = b := by
  cases a
  cases b
  cases h1
  cases h2
  rfl

/-- `filterMap` with a function that fixes every element is the identity. -/
theorem filterMap_fixes_eq_self {α : Type} (f : α → Option α) (l : List α)
    (h : ∀ a ∈ l, f a = some a) : l.filterMap f = l := by
  induction l with
  | nil => rfl
  | cons a t ih =>
      rw [List.filterMap_cons_some (h a (List.mem_cons_self a t)),
        ih (fun x hx => h x (List.mem_cons_of_mem a hx))]

/-! ### Claims -/

/-- Claim C3: in the approval/denial classification of the Aggregator, a decision
text case-insensitively containing "aprovado" is counted approved unless it
also contains "indeferido" or "negado", in which case it is counted denied:
the denial substrings take precedence. -/
theorem aggregator_denial_precedence (s : String)
    (hap : strContainsSub (lowerStr s) "aprovado" = true) :
    ((strContainsSub (lowerStr s) "indeferido" || strContainsSub (lowerStr s) "negado") = true →
      negadoCell (CellValue.str s) = true ∧ aprovadoCell (CellValue.str s) = false) ∧
    ((strContainsSub (lowerStr s) "indeferido" || strContainsSub (lowerStr s) "negado") = false →
      aprovadoCell (CellValue.str s) = true ∧ negadoCell (CellValue.str s) = false) := by
  constructor
  · intro hden
    exact ⟨by rw [negadoCell]; exact hden, by rw [aprovadoCell, hap, hden]; rfl⟩
  · intro hden
    exact ⟨by rw [aprovadoCell, hap, hden]; rfl, by rw [negadoCell]; exact hden⟩

/-- Witness for C3 at a text carrying both polarities and one carrying only
approval. -/
theorem aggregator_denial_precedence_witness :
    (negadoCell (CellValue.str "Aprovado em parte, depois Negado") = true ∧
      aprovadoCell (CellValue.str "Aprovado em parte, depois Negado") = false) ∧
    (aprovadoCell (CellValue.str "Aprovado") = true ∧
      negadoCell (CellValue.str "Aprovado") = false) :=
  ⟨(aggregator_denial_precedence "Aprovado em parte, depois Negado" (by decide)).1 (by decide),
   (aggregator_denial_precedence "Aprovado" (by decide)).2 (by decide)⟩

/-- Claim C6: the approval rate is 0 when approved+denied is 0, and the
history percentage is 0 when the distinct current identifier count is 0;
neither computation faults. -/
theorem aggregator_zero_denominators (hist req : DataFrame) :
    (nunique req "nusp" = 0 → percentual_historico hist req = 0) ∧
    (countAprovados hist + countNegados hist = 0 → taxa_aprovacao hist = 0) := by
  constructor
  · intro h
    rw [percentual_historico, if_neg (by rw [h]; exact lt_irrefl 0)]
  · intro h
    rw [taxa_aprovacao]
    simp only [h]
    rw [if_neg (lt_irrefl 0)]

/-- Witness for C6 on empty datasets. -/
theorem aggregator_zero_denominators_witness :
    percentual_historico ⟨[], []⟩ ⟨[], []⟩ = 0 ∧ taxa_aprovacao ⟨[], []⟩ = 0 :=
  ⟨(aggregator_zero_denominators ⟨[], []⟩ ⟨[], []⟩).1 (by decide),
   (aggregator_zero_denominators ⟨[], []⟩ ⟨[], []⟩).2 (by decide)⟩

/-- Claim C5: when no raw column normalizes to the canonical identifier,
the Header Normalizer fails with `MissingIdentifierColumn` carrying the
available column names; when some column does normalize to it, no such
error is raised. -/
theorem header_missing_identifier (df : DataFrame) :
    ((∀ c ∈ df.cols, renameCol c ≠ "nusp") →
      find_and_rename_nusp_column df =
        Except.error (AppError.missingIdentifier (df.cols.map renameCol))) ∧
    ((∃ c ∈ df.cols, renameCol c = "nusp") →
      ∃ df', find_and_rename_nusp_column df = Except.ok df') := by
  constructor
  · intro h
    have hnm : "nusp" ∉ df.cols.map renameCol := by
      intro hm
      obtain ⟨c, hc, hcn⟩ := List.mem_map.1 hm
      exact h c hc hcn
    simp only [find_and_rename_nusp_column]
    rw [if_neg hnm]
  · rintro ⟨c, hc, hcn⟩
    have hm : "nusp" ∈ df.cols.map renameCol := List.mem_map.2 ⟨c, hc, hcn⟩
    refine ⟨{ df with cols := df.cols.map renameCol }, ?_⟩
    simp only [find_and_rename_nusp_column]
    rw [if_pos hm]

/-- Witness for C5: a dataset with no identifier column fails carrying its
column list; a dataset with an identifier-variant column passes. -/
theorem header_missing_identifier_witness :
    find_and_rename_nusp_column ⟨["foo"], []⟩ =
      Except.error (AppError.missingIdentifier ["foo"]) ∧
    ∃ df', find_and_rename_nusp_column ⟨["Número USP"], []⟩ = Except.ok df' := by
  constructor
  · rw [(header_missing_identifier ⟨["foo"], []⟩).1 (by decide)]
    decide
  · exact (header_missing_identifier ⟨["Número USP"], []⟩).2 ⟨"Número USP", by decide, by decide⟩

/-- Claim C9: header normalization is idempotent: re-normalizing the output
of a successful normalization changes nothing. -/
theorem header_normalization_idempotent (df df' : DataFrame)
    (h : find_and_rename_nusp_column df = Except.ok df') :
    find_and_rename_nusp_column df' = Except.ok df' := by
  obtain ⟨hdf, hmem⟩ := find_and_rename_ok df df' h
  subst hdf
  have hcols : (df.cols.map renameCol).map renameCol = df.cols.map renameCol := by
    rw [List.map_map]
    exact List.map_congr_left (fun c _ => renameCol_idem c)
  simp only [find_and_rename_nusp_column, hcols]
  rw [if_pos hmem]

/-- Witness for C9 on a dataset whose raw header is an identifier variant. -/
theorem header_normalization_idempotent_witness :
    find_and_rename_nusp_column ⟨["nusp", "problema"], []⟩ =
      Except.ok ⟨["nusp", "problema"], []⟩ :=
  header_normalization_idempotent ⟨["NUSP", "Problema"], []⟩ ⟨["nusp", "problema"], []⟩
    (by decide)

/-- Counterexample to claim C2 as stated: the record with raw identifier
"-5" parses numerically, survives the cleaner, and its cleaned identifier
is the negative integer -5, so not every remaining identifier is a
non-negative integer. -/
theorem record_cleaner_counterexample :
    ¬ (∀ r ∈ (preprocess_data ⟨["nusp"], [[CellValue.str "-5"]]⟩).df.rows,
        ∀ q : Rat,
          rowCell (preprocess_data ⟨["nusp"], [[CellValue.str "-5"]]⟩).df "nusp" r
            = CellValue.num q → 0 ≤ q) := by
  intro h
  exact absurd (h [CellValue.num (-5)] (by decide) (-5) (by decide)) (by decide)

/-- Claim C2 (amended): after the Record Cleaner runs, every remaining
record keeps an integer identifier (possibly negative), and exactly the
records whose identifier fails to parse as a number are dropped, each
survivor keeping its row with the identifier written back truncated. -/
theorem record_cleaner_integer_ids (df : DataFrame) :
    (∀ r ∈ (preprocess_data df).df.rows,
        ∃ n : Int, rowCell (preprocess_data df).df "nusp" r = CellValue.num ((n : Int) : Rat)) ∧
    (preprocess_data df).df.rows = df.rows.filterMap (cleanRow (nuspIdx df)) := by
  refine ⟨?_, (preprocess_data_spec df).1⟩
  intro r hr
  rw [(preprocess_data_spec df).1] at hr
  obtain ⟨r₀, hr₀, hcl⟩ := List.mem_filterMap.1 hr
  rw [cleanRow] at hcl
  cases hq : toNumeric (cellAt r₀ (nuspIdx df)) with
  | none =>
      rw [hq] at hcl
      exact Option.noConfusion hcl
  | some q =>
      rw [hq] at hcl
      injection hcl with hcl
      have hlen : nuspIdx df < r₀.length := by
        by_contra hh
        push_neg at hh
        rw [cellAt_of_length_le _ _ hh] at hq
        exact Option.noConfusion hq
      refine ⟨ratTrunc q, ?_⟩
      show cellAt r (nuspIdx df) = _
      rw [← hcl, cellAt_set_self _ _ _ hlen]

/-- Witness for C2 (amended) on a one-row dataset. -/
theorem record_cleaner_integer_ids_witness :
    (∃ n : Int,
      rowCell (preprocess_data ⟨["nusp"], [[CellValue.str "7"]]⟩).df "nusp" [CellValue.num 7]
        = CellValue.num ((n : Int) : Rat)) ∧
    (preprocess_data ⟨["nusp"], [[CellValue.str "7"]]⟩).df.rows =
      [[CellValue.str "7"]].filterMap (cleanRow 0) :=
  ⟨(record_cleaner_integer_ids ⟨["nusp"], [[CellValue.str "7"]]⟩).1 [CellValue.num 7] (by decide),
   (record_cleaner_integer_ids ⟨["nusp"], [[CellValue.str "7"]]⟩).2⟩

/-- Claim C10: a row whose identifier parses as a numeric but non-integer
value is not dropped by the Record Cleaner and is not counted in the
removed-row warning; it is kept with its identifier truncated to the
integer part. -/
theorem cleaner_keeps_noninteger_numerals (df : DataFrame) (r : List CellValue) (q : Rat)
    (hr : r ∈ df.rows) (hq : toNumeric (cellAt r (nuspIdx df)) = some q)
    (_hni : q.den ≠ 1) :
    r.set (nuspIdx df) (CellValue.num ((ratTrunc q : Int) : Rat))
        ∈ (preprocess_data df).df.rows ∧
    (preprocess_data df).removed =
      df.rows.countP (fun r => (toNumeric (cellAt r (nuspIdx df))).isNone) := by
  refine ⟨?_, (preprocess_data_spec df).2⟩
  rw [(preprocess_data_spec df).1]
  refine List.mem_filterMap.2 ⟨r, hr, ?_⟩
  rw [cleanRow, hq]
  rfl

/-- Witness for C10: both "123.7" and "123.2" survive, truncate to the same
key 123, and the removed-row count stays 0. -/
theorem cleaner_keeps_noninteger_numerals_witness :
    [CellValue.num 123] ∈
      (preprocess_data ⟨["nusp"], [[CellValue.str "123.7"], [CellValue.str "123.2"]]⟩).df.rows ∧
    (preprocess_data ⟨["nusp"], [[CellValue.str "123.7"], [CellValue.str "123.2"]]⟩).df.rows =
      [[CellValue.num 123], [CellValue.num 123]] ∧
    (preprocess_data ⟨["nusp"], [[CellValue.str "123.7"], [CellValue.str "123.2"]]⟩).removed = 0 := by
  have h := cleaner_keeps_noninteger_numerals
    ⟨["nusp"], [[CellValue.str "123.7"], [CellValue.str "123.2"]]⟩
    [CellValue.str "123.7"] (mkRat 1237 10) (by decide) (by decide) (by decide)
  refine ⟨?_, by decide, by rw [h.2]; decide⟩
  have h1 := h.1
  rw [show ([CellValue.str "123.7"].set
      (nuspIdx ⟨["nusp"], [[CellValue.str "123.7"], [CellValue.str "123.2"]]⟩)
      (CellValue.num ((ratTrunc (mkRat 1237 10) : Int) : Rat)))
      = [CellValue.num 123] from by decide] at h1
  exact h1

/-- `>>=` on a successful `Except` computation applies the continuation. -/
theorem except_bind_ok {ε α β : Type} (a : α) (f : α → Except ε β) :
    (Except.ok a : Except ε α) >>= f = f a := rfl

/-- `>>=` on a failed `Except` computation propagates the error. -/
theorem except_bind_error {ε α β : Type} (e : ε) (f : α → Except ε β) :
    (Except.error e : Except ε α) >>= f = Except.error e := rfl

/-- Claim C4: for every normalized dataset pair, the Schema Validator
computes the missing required fields of each dataset independently and, when
either set is non-empty, fails with a `SchemaValidationError` listing per
dataset exactly the absent canonical fields; that failure is the result of
the whole pipeline, so no cleaning, join, or aggregation output is
produced. -/
theorem schema_validation_aborts (dfc0 dfr0 dfc dfr : DataFrame)
    (hc : find_and_rename_nusp_column dfc0 = Except.ok dfc)
    (hr : find_and_rename_nusp_column dfr0 = Except.ok dfr)
    (hmiss : missingCols required_cols_consolidado dfc ≠ [] ∨
      missingCols required_cols_requerimentos dfr ≠ []) :
    validate_dataframes dfc dfr =
      Except.error (AppError.schemaValidation
        (missingCols required_cols_consolidado dfc)
        (missingCols required_cols_requerimentos dfr)) ∧
    run_app dfc0 dfr0 =
      Except.error (AppError.schemaValidation
        (missingCols required_cols_consolidado dfc)
        (missingCols required_cols_requerimentos dfr)) := by
  have hcond : ¬(missingCols required_cols_consolidado dfc = [] ∧
      missingCols required_cols_requerimentos dfr = []) := by
    rintro ⟨h1, h2⟩
    rcases hmiss with h | h
    · exact h h1
    · exact h h2
  have hval : validate_dataframes dfc dfr =
      Except.error (AppError.schemaValidation
        (missingCols required_cols_consolidado dfc)
        (missingCols required_cols_requerimentos dfr)) := by
    simp only [validate_dataframes]
    rw [if_neg hcond]
  refine ⟨hval, ?_⟩
  simp only [run_app]
  rw [hc, except_bind_ok, hr, except_bind_ok, hval, except_bind_error]

/-- Witness for C4: a historical dataset carrying only the identifier
column makes the pipeline fail, naming its five missing fields. -/
theorem schema_validation_aborts_witness :
    validate_dataframes ⟨["nusp"], []⟩ ⟨["nusp", "Nome completo", "problema"], []⟩ =
      Except.error (AppError.schemaValidation
        ["disciplina", "Ano", "Semestre", "problema", "parecer"] []) ∧
    run_app ⟨["nusp"], []⟩ ⟨["nusp", "Nome completo", "problema"], []⟩ =
      Except.error (AppError.schemaValidation
        ["disciplina", "Ano", "Semestre", "problema", "parecer"] []) := by
  have h := schema_validation_aborts ⟨["nusp"], []⟩ ⟨["nusp", "Nome completo", "problema"], []⟩
    ⟨["nusp"], []⟩ ⟨["nusp", "Nome completo", "problema"], []⟩
    (by decide) (by decide) (Or.inl (by decide))
  constructor
  · rw [h.1]
    decide
  · rw [h.2]
    decide

/-- Claim C8: the Record Cleaner is idempotent: running it on its own
output removes zero rows, changes nothing, and in particular never reduces
the identifier count. -/
theorem record_cleaner_idempotent (df : DataFrame) :
    preprocess_data (preprocess_data df).df = ⟨(preprocess_data df).df, 0⟩ ∧
    nunique (preprocess_data (preprocess_data df).df).df "nusp" =
      nunique (preprocess_data df).df "nusp" := by
  have hkey : ∀ r ∈ (preprocess_data df).df.rows,
      cleanRow (nuspIdx df) r = some r := by
    intro r hr
    rw [(preprocess_data_spec df).1] at hr
    obtain ⟨r₀, hr₀, hcl⟩ := List.mem_filterMap.1 hr
    rw [cleanRow] at hcl
    cases hq : toNumeric (cellAt r₀ (nuspIdx df)) with
    | none =>
        rw [hq] at hcl
        exact Option.noConfusion hcl
    | some q =>
        rw [hq] at hcl
        injection hcl with hcl
        have hlen : nuspIdx df < r₀.length := by
          by_contra hh
          push_neg at hh
          rw [cellAt_of_length_le _ _ hh] at hq
          exact Option.noConfusion hq
        have hcell : cellAt r (nuspIdx df) = CellValue.num ((ratTrunc q : Int) : Rat) := by
          rw [← hcl]
          exact cellAt_set_self _ _ _ hlen
        rw [cleanRow, hcell]
        show some (r.set (nuspIdx df)
          (CellValue.num ((ratTrunc ((ratTrunc q : Int) : Rat) : Int) : Rat))) = some r
        rw [ratTrunc_intCast,
          show CellValue.num ((ratTrunc q : Int) : Rat) = cellAt r (nuspIdx df) from hcell.symm,
          set_cellAt_self]
  have hidx : nuspIdx (preprocess_data df).df = nuspIdx df := rfl
  have hspec := preprocess_data_spec (preprocess_data df).df
  rw [hidx] at hspec
  have hrows : (preprocess_data (preprocess_data df).df).df.rows =
      (preprocess_data df).df.rows := by
    rw [hspec.1]
    exact filterMap_fixes_eq_self _ _ hkey
  have hrem : (preprocess_data (preprocess_data df).df).removed = 0 := by
    rw [hspec.2]
    refine List.countP_eq_zero.2 ?_
    intro r hr
    have h := hkey r hr
    rw [cleanRow] at h
    cases hq : toNumeric (cellAt r (nuspIdx df)) with
    | none =>
        rw [hq] at h
        exact Option.noConfusion h
    | some q => simp
  have hmain : preprocess_data (preprocess_data df).df = ⟨(preprocess_data df).df, 0⟩ :=
    cleanResult_ext _ _ (dataFrame_ext _ _ rfl hrows) hrem
  refine ⟨hmain, ?_⟩
  rw [hmain]

/-- Claim C1: the "with history" identifiers and the "new" identifiers are
disjoint, and together they cover exactly the identifiers of the current
dataset. -/
theorem reconciler_partition (dfReq dfCons : DataFrame) (v : CellValue)
    (hk : "nusp" ∈ dfReq.cols)
    (hwf : ∀ r ∈ dfReq.rows, r.length = dfReq.cols.length) :
    ¬(v ∈ nuspsComHistorico dfReq dfCons ∧ v ∈ nuspsOf (dfNovos dfReq dfCons)) ∧
    ((v ∈ nuspsComHistorico dfReq dfCons ∨ v ∈ nuspsOf (dfNovos dfReq dfCons)) ↔
      v ∈ nuspsOf dfReq) := by
  have hHist : ∀ w : CellValue, w ∈ nuspsComHistorico dfReq dfCons →
      ∃ r ∈ dfReq.rows, rowCell dfReq "nusp" r = w := by
    intro w hw
    rw [nuspsComHistorico, nuspsOf] at hw
    obtain ⟨row, hrow, hcell⟩ := List.mem_map.1 hw
    obtain ⟨r, hr, h, _hh, _hcond, hroweq⟩ :=
      (mem_mergeInner_rows dfReq dfCons "nusp" row).1 hrow
    subst hroweq
    rw [rowCell_mergeInner dfReq dfCons "nusp" hk _ _ (le_of_eq (hwf r hr).symm)] at hcell
    exact ⟨r, hr, hcell⟩
  have hNov : ∀ w : CellValue, w ∈ nuspsOf (dfNovos dfReq dfCons) ↔
      ∃ r ∈ dfReq.rows, rowCell dfReq "nusp" r = w ∧
        rowCell dfReq "nusp" r ∉ nuspsComHistorico dfReq dfCons := by
    intro w
    constructor
    · intro hw
      rw [nuspsOf] at hw
      obtain ⟨r, hrf, hcell⟩ := List.mem_map.1 hw
      obtain ⟨hrm, hp⟩ := List.mem_filter.1 hrf
      simp only [Bool.not_eq_true', decide_eq_false_iff_not] at hp
      exact ⟨r, hrm, hcell, hp⟩
    · rintro ⟨r, hr, hcell, hnot⟩
      rw [nuspsOf]
      refine List.mem_map.2 ⟨r, ?_, hcell⟩
      refine List.mem_filter.2 ⟨hr, ?_⟩
      simp only [Bool.not_eq_true', decide_eq_false_iff_not]
      exact hnot
  constructor
  · rintro ⟨hh, hn⟩
    obtain ⟨r, _hr, hcell, hnot⟩ := (hNov v).1 hn
    rw [hcell] at hnot
    exact hnot hh
  · constructor
    · rintro (hh | hn)
      · obtain ⟨r, hr, hcell⟩ := hHist v hh
        rw [nuspsOf]
        exact List.mem_map.2 ⟨r, hr, hcell⟩
      · obtain ⟨r, hr, hcell, _⟩ := (hNov v).1 hn
        rw [nuspsOf]
        exact List.mem_map.2 ⟨r, hr, hcell⟩
    · intro hv
      rw [nuspsOf] at hv
      obtain ⟨r, hr, hcell⟩ := List.mem_map.1 hv
      by_cases hmem : v ∈ nuspsComHistorico dfReq dfCons
      · exact Or.inl hmem
      · refine Or.inr ((hNov v).2 ⟨r, hr, hcell, ?_⟩)
        rw [hcell]
        exact hmem

/-- Witness for C1 on the two-student scenario of the spec. -/
theorem reconciler_partition_witness :
    ¬(CellValue.num 123 ∈ nuspsComHistorico
        ⟨["nusp", "Nome completo", "problema_atual"],
          [[CellValue.num 123, CellValue.str "Ana", CellValue.str "QR"],
           [CellValue.num 456, CellValue.str "Bruno", CellValue.str "CH"]]⟩
        ⟨["nusp", "disciplina_historico"], [[CellValue.num 123, CellValue.str "Calculus"]]⟩ ∧
      CellValue.num 123 ∈ nuspsOf (dfNovos
        ⟨["nusp", "Nome completo", "problema_atual"],
          [[CellValue.num 123, CellValue.str "Ana", CellValue.str "QR"],
           [CellValue.num 456, CellValue.str "Bruno", CellValue.str "CH"]]⟩
        ⟨["nusp", "disciplina_historico"], [[CellValue.num 123, CellValue.str "Calculus"]]⟩)) ∧
    ((CellValue.num 456 ∈ nuspsComHistorico
        ⟨["nusp", "Nome completo", "problema_atual"],
          [[CellValue.num 123, CellValue.str "Ana", CellValue.str "QR"],
           [CellValue.num 456, CellValue.str "Bruno", CellValue.str "CH"]]⟩
        ⟨["nusp", "disciplina_historico"], [[CellValue.num 123, CellValue.str "Calculus"]]⟩ ∨
      CellValue.num 456 ∈ nuspsOf (dfNovos
        ⟨["nusp", "Nome completo", "problema_atual"],
          [[CellValue.num 123, CellValue.str "Ana", CellValue.str "QR"],
           [CellValue.num 456, CellValue.str "Bruno", CellValue.str "CH"]]⟩
        ⟨["nusp", "disciplina_historico"], [[CellValue.num 123, CellValue.str "Calculus"]]⟩)) ↔
      CellValue.num 456 ∈ nuspsOf
        ⟨["nusp", "Nome completo", "problema_atual"],
          [[CellValue.num 123, CellValue.str "Ana", CellValue.str "QR"],
           [CellValue.num 456, CellValue.str "Bruno", CellValue.str "CH"]]⟩) :=
  ⟨(reconciler_partition
      ⟨["nusp", "Nome completo", "problema_atual"],
        [[CellValue.num 123, CellValue.str "Ana", CellValue.str "QR"],
         [CellValue.num 456, CellValue.str "Bruno", CellValue.str "CH"]]⟩
      ⟨["nusp", "disciplina_historico"], [[CellValue.num 123, CellValue.str "Calculus"]]⟩
      (CellValue.num 123) (by decide) (by decide)).1,
   (reconciler_partition
      ⟨["nusp", "Nome completo", "problema_atual"],
        [[CellValue.num 123, CellValue.str "Ana", CellValue.str "QR"],
         [CellValue.num 456, CellValue.str "Bruno", CellValue.str "CH"]]⟩
      ⟨["nusp", "disciplina_historico"], [[CellValue.num 123, CellValue.str "Calculus"]]⟩
      (CellValue.num 456) (by decide) (by decide)).2⟩

/-- Counting rows with a given key in the flattened join: each left row
carrying the key contributes one copy of the right-side key count. -/
theorem countP_merge_flatMap (dfL dfR : DataFrame) (v : CellValue)
    (hk : "nusp" ∈ dfL.cols) (hv : v ≠ CellValue.null) :
    ∀ L : List (List CellValue), (∀ r ∈ L, r.length = dfL.cols.length) →
      (L.flatMap (fun r =>
        ((dfR.rows.filter (fun h =>
            decide (rowCell dfL "nusp" r = rowCell dfR "nusp" h ∧
              rowCell dfL "nusp" r ≠ CellValue.null))).map
          (fun h => r ++ h.eraseIdx (dfR.cols.indexOf "nusp"))))).countP
          (fun row => decide (rowCell (mergeInner dfL dfR "nusp") "nusp" row = v))
        = L.countP (fun r => decide (rowCell dfL "nusp" r = v)) *
          dfR.rows.countP (fun h => decide (rowCell dfR "nusp" h = v)) := by
  intro L
  induction L with
  | nil => intro _; simp
  | cons r L ih =>
      intro hwf
      have hwfr : dfL.cols.length ≤ r.length :=
        le_of_eq (hwf r (List.mem_cons_self r L)).symm
      have hwfL : ∀ x ∈ L, x.length = dfL.cols.length :=
        fun x hx => hwf x (List.mem_cons_of_mem r hx)
      rw [List.flatMap_cons, List.countP_append, ih hwfL, List.countP_cons,
        List.countP_map]
      by_cases hcase : rowCell dfL "nusp" r = v
      · have h1 : List.countP
            ((fun row => decide (rowCell (mergeInner dfL dfR "nusp") "nusp" row = v)) ∘
              (fun h => r ++ h.eraseIdx (dfR.cols.indexOf "nusp")))
            (dfR.rows.filter (fun h =>
              decide (rowCell dfL "nusp" r = rowCell dfR "nusp" h ∧
                rowCell dfL "nusp" r ≠ CellValue.null)))
            = (dfR.rows.filter (fun h =>
              decide (rowCell dfL "nusp" r = rowCell dfR "nusp" h ∧
                rowCell dfL "nusp" r ≠ CellValue.null))).length := by
          refine List.countP_eq_length.2 ?_
          intro h _
          show decide (rowCell (mergeInner dfL dfR "nusp") "nusp"
            (r ++ h.eraseIdx (dfR.cols.indexOf "nusp")) = v) = true
          rw [rowCell_mergeInner dfL dfR "nusp" hk _ _ hwfr, hcase]
          simp
        have h2 : List.countP (fun h =>
              decide (rowCell dfL "nusp" r = rowCell dfR "nusp" h ∧
                rowCell dfL "nusp" r ≠ CellValue.null)) dfR.rows
            = List.countP (fun h => decide (rowCell dfR "nusp" h = v)) dfR.rows := by
          refine List.countP_congr ?_
          intro h _
          simp only [decide_eq_true_eq]
          constructor
          · rintro ⟨he, _⟩
            rw [← he, hcase]
          · intro he
            rw [hcase]
            exact ⟨he.symm, hv⟩
        rw [h1, ← List.countP_eq_length_filter, h2, if_pos (by simpa using hcase),
          Nat.add_mul, Nat.one_mul, Nat.add_comm]
      · have h1 : List.countP
            ((fun row => decide (rowCell (mergeInner dfL dfR "nusp") "nusp" row = v)) ∘
              (fun h => r ++ h.eraseIdx (dfR.cols.indexOf "nusp")))
            (dfR.rows.filter (fun h =>
              decide (rowCell dfL "nusp" r = rowCell dfR "nusp" h ∧
                rowCell dfL "nusp" r ≠ CellValue.null)))
            = 0 := by
          refine List.countP_eq_zero.2 ?_
          intro h _
          show ¬ decide (rowCell (mergeInner dfL dfR "nusp") "nusp"
            (r ++ h.eraseIdx (dfR.cols.indexOf "nusp")) = v) = true
          rw [rowCell_mergeInner dfL dfR "nusp" hk _ _ hwfr]
          simp [hcase]
        rw [h1, if_neg (by simpa using hcase), Nat.add_zero, Nat.zero_add]

/-- Claim C7: for every key value `v`, the inner equi-join has exactly
(count of current rows with key `v`) x (count of historical rows with key
`v`) rows with key `v`: each current record fans out to one joined record
per matching historical record. -/
theorem reconciler_join_cardinality (dfL dfR : DataFrame) (v : CellValue)
    (hk : "nusp" ∈ dfL.cols)
    (hwf : ∀ r ∈ dfL.rows, r.length = dfL.cols.length)
    (hv : v ≠ CellValue.null) :
    (mergeInner dfL dfR "nusp").rows.countP
        (fun row => decide (rowCell (mergeInner dfL dfR "nusp") "nusp" row = v))
      = dfL.rows.countP (fun r => decide (rowCell dfL "nusp" r = v)) *
        dfR.rows.countP (fun h => decide (rowCell dfR "nusp" h = v)) :=
  countP_merge_flatMap dfL dfR v hk hv dfL.rows hwf

/-- Witness for C7: one current record with key 123 against two historical
records with key 123 yields exactly 2 joined rows. -/
theorem reconciler_join_cardinality_witness :
    (mergeInner ⟨["nusp", "Nome completo"], [[CellValue.num 123, CellValue.str "Ana"]]⟩
        ⟨["nusp", "disciplina_historico"],
          [[CellValue.num 123, CellValue.str "Calculus"],
           [CellValue.num 123, CellValue.str "Algebra"]]⟩ "nusp").rows.countP
        (fun row => decide (rowCell
          (mergeInner ⟨["nusp", "Nome completo"], [[CellValue.num 123, CellValue.str "Ana"]]⟩
            ⟨["nusp", "disciplina_historico"],
              [[CellValue.num 123, CellValue.str "Calculus"],
               [CellValue.num 123, CellValue.str "Algebra"]]⟩ "nusp") "nusp" row
          = CellValue.num 123)) = 2 := by
  rw [reconciler_join_cardinality
    ⟨["nusp", "Nome completo"], [[CellValue.num 123, CellValue.str "Ana"]]⟩
    ⟨["nusp", "disciplina_historico"],
      [[CellValue.num 123, CellValue.str "Calculus"],
       [CellValue.num 123, CellValue.str "Algebra"]]⟩
    (CellValue.num 123) (by decide) (by decide) (by decide)]
  decide

end AppReqV
